import Mathlib

/-!
Verification of the emergency-network simulator's graph core.

The working graph, its baseline snapshot, the mutation operations
(node failure, reset) and the algorithm suite (Prim MST, Dijkstra,
all-pairs Dijkstra, Edmonds-Karp max-flow over the undirected graph,
greedy largest-first coloring, structural metrics) are embedded as
executable Lean functions, translated from the simulator source.
-/

/-- Error raised by the graph store when an operation references an
absent node. -/
inductive GraphError where
  | nodeNotFound : GraphError
  deriving DecidableEq

/-- A network node: identifier plus the status/load attributes attached
at graph initialization. -/
structure Node where
  id : Nat
  status : String
  load : ℚ
  deriving DecidableEq

/-- An undirected edge with its weight, capacity and utilization
attributes. -/
structure Edge where
  u : Nat
  v : Nat
  weight : Int
  capacity : Int
  utilization : ℚ
  deriving DecidableEq

/-- The mutable network graph: node list and edge list, in insertion
order. -/
structure Graph where
  nodes : List Node
  edges : List Edge
  deriving DecidableEq

/-- The baseline topology built at startup: 8 nodes (ids 1..8) with
status "active" and load 0.5, and the 9 weighted/capacitated edges. -/
def baselineGraph : Graph :=
  { nodes := (List.range 8).map (fun i => { id := i + 1, status := "active", load := 1/2 }),
    edges :=
      [ { u := 1, v := 2, weight := 4, capacity := 100, utilization := 3/10 },
        { u := 1, v := 3, weight := 3, capacity := 100, utilization := 3/10 },
        { u := 2, v := 4, weight := 5, capacity := 80, utilization := 3/10 },
        { u := 3, v := 4, weight := 6, capacity := 60, utilization := 3/10 },
        { u := 3, v := 5, weight := 2, capacity := 120, utilization := 3/10 },
        { u := 5, v := 6, weight := 4, capacity := 90, utilization := 3/10 },
        { u := 6, v := 7, weight := 3, capacity := 110, utilization := 3/10 },
        { u := 7, v := 8, weight := 2, capacity := 100, utilization := 3/10 },
        { u := 4, v := 8, weight := 7, capacity := 50, utilization := 3/10 } ] }

/-- The graph with no nodes and no edges. -/
def emptyNetGraph : Graph := { nodes := [], edges := [] }

/-- The identifiers of the current nodes, in insertion order. -/
def nodeIds (g : Graph) : List Nat := g.nodes.map Node.id

/-- Neighbors of a node: the opposite endpoint of every incident edge,
in edge-list order. -/
def neighbors (g : Graph) (n : Nat) : List Nat :=
  g.edges.filterMap (fun e =>
    if e.u = n then some e.v else if e.v = n then some e.u else none)

/-- Degree of a node. -/
def degree (g : Graph) (n : Nat) : Nat := (neighbors g n).length

/-- Weight of the edge between two nodes (0 when absent; only queried
for existing edges). -/
def edgeWeight (g : Graph) (a b : Nat) : Int :=
  match g.edges.find? (fun e => (e.u == a && e.v == b) || (e.u == b && e.v == a)) with
  | some e => e.weight
  | none => 0

/-- Capacity of the edge between two nodes (0 when absent). -/
def capBetween (g : Graph) (a b : Nat) : Int :=
  match g.edges.find? (fun e => (e.u == a && e.v == b) || (e.u == b && e.v == a)) with
  | some e => e.capacity
  | none => 0

/-- The graph after deleting a node together with all incident edges. -/
def removedGraph (g : Graph) (n : Nat) : Graph :=
  { nodes := g.nodes.filter (fun x => x.id != n),
    edges := g.edges.filter (fun e => e.u != n && e.v != n) }

/-- Node removal: fails with nodeNotFound when the id is absent,
otherwise removes the node and its incident edges. -/
def removeNodeE (g : Graph) (n : Nat) : Except GraphError Graph :=
  if n ∈ nodeIds g then Except.ok (removedGraph g n)
  else Except.error GraphError.nodeNotFound

/-- Total version of node removal: leaves the graph unchanged when the
node is absent. -/
def removeNodeT (g : Graph) (n : Nat) : Graph :=
  match removeNodeE g n with
  | Except.ok g2 => g2
  | Except.error _ => g

/-- The graph store: the working graph and the baseline snapshot taken
at construction. -/
structure Store where
  G : Graph
  G_original : Graph
  deriving DecidableEq

/-- The store right after construction: working graph and baseline are
both the baseline topology. -/
def initStore : Store := { G := baselineGraph, G_original := baselineGraph }

/-- Node-failure mutation on the store: removes the node from the
working graph; a missing node leaves the working graph unchanged and
never touches the baseline. -/
def failNode (s : Store) (n : Nat) : Store :=
  match removeNodeE s.G n with
  | Except.ok g2 => { s with G := g2 }
  | Except.error _ => s

/-- Reset: replace the working graph with a copy of the baseline. -/
def resetStore (s : Store) : Store := { s with G := s.G_original }

/-- A whole sequence of node-failure mutations, applied left to right. -/
def applyFails (s : Store) (l : List Nat) : Store := l.foldl failNode s

/-- One expansion step of the reachable set: add every neighbor of a
member that is not already present. -/
def stepReach (g : Graph) (s : List Nat) : List Nat :=
  s.foldl (fun acc x => acc ++ (neighbors g x).filter (fun v => !acc.contains v)) s

/-- All nodes reachable from a start node, computed by iterating the
expansion step once per node of the graph. -/
def reachClosure (g : Graph) (start : Nat) : List Nat :=
  (List.range g.nodes.length).foldl (fun acc _ => stepReach g acc) [start]

/-- Whether a path exists between two nodes. -/
def hasPathB (g : Graph) (a b : Nat) : Bool := (reachClosure g a).contains b

/-- Whether the graph is connected (every node reachable from the first
node). -/
def isConnectedB (g : Graph) : Bool :=
  (nodeIds g).all (fun v => (reachClosure g ((nodeIds g).headD 0)).contains v)

/-- Reachability as an inductive relation: the reflexive-transitive
closure of the neighbor relation. -/
inductive Reaches (g : Graph) (s : Nat) : Nat → Prop
  | refl : Reaches g s s
  | step {a b : Nat} : Reaches g s a → b ∈ neighbors g a → Reaches g s b

/-- Remove the entry with minimal key from a list, by a key function;
the first occurrence wins on ties (matching heap insertion order). -/
def popMinBy {α : Type} (f : α → Int) : List α → Option (α × List α)
  | [] => none
  | a :: tl =>
    match popMinBy f tl with
    | none => some (a, [])
    | some (b, tl2) => if f a ≤ f b then some (a, tl) else some (b, a :: tl2)

/-- Core Dijkstra loop over tentative-distance fringe entries, lazy
deletion at pop time; returns the finalized distance list. -/
def dijkstraLoopD (g : Graph) : Nat → List (Nat × Int) → List (Nat × Int) → List (Nat × Int)
  | 0, dist, _ => dist
  | fuel + 1, dist, fringe =>
    match popMinBy (fun t => t.2) fringe with
    | none => dist
    | some ((a, d), rest) =>
      if (dist.find? (fun t => t.1 == a)).isSome then
        dijkstraLoopD g fuel dist rest
      else
        dijkstraLoopD g fuel (dist ++ [(a, d)])
          (rest ++ (neighbors g a).map (fun v => (v, d + edgeWeight g a v)))

/-- Single-source Dijkstra distances: only reachable nodes receive an
entry. -/
def dijkstraDists (g : Graph) (s : Nat) : List (Nat × Int) :=
  dijkstraLoopD g (2 * g.edges.length + g.nodes.length + 2) [] [(s, 0)]

/-- All-pairs shortest-path lengths by running Dijkstra from every
node, as the simulator's all-pairs task does. -/
def allPairsDijkstra (g : Graph) : List (Nat × List (Nat × Int)) :=
  (nodeIds g).map (fun a => (a, dijkstraDists g a))

/-- Distance lookup in the all-pairs result: none when the source row
or the target entry is absent. -/
def apLookup (g : Graph) (a b : Nat) : Option Int :=
  match (allPairsDijkstra g).find? (fun r => r.1 == a) with
  | none => none
  | some (_, row) => ((row.find? (fun t => t.1 == b)).map Prod.snd)

/-- Dijkstra loop variant that also carries the path taken to each
fringe entry, as the path-returning call does. -/
def dijkstraLoopP (g : Graph) :
    Nat → List (Nat × Int × List Nat) → List (Nat × Int × List Nat) → List (Nat × Int × List Nat)
  | 0, dist, _ => dist
  | fuel + 1, dist, fringe =>
    match popMinBy (fun t => t.2.1) fringe with
    | none => dist
    | some ((a, d, p), rest) =>
      if (dist.find? (fun t => t.1 == a)).isSome then
        dijkstraLoopP g fuel dist rest
      else
        dijkstraLoopP g fuel (dist ++ [(a, d, p)])
          (rest ++ (neighbors g a).map (fun v => (v, d + edgeWeight g a v, p ++ [v])))

/-- Single-source Dijkstra with paths. -/
def dijkstraAll (g : Graph) (s : Nat) : List (Nat × Int × List Nat) :=
  dijkstraLoopP g (2 * g.edges.length + g.nodes.length + 2) [] [(s, 0, [s])]

/-- The shortest path between two nodes ([] when unreachable). -/
def dijkstraPath (g : Graph) (s t : Nat) : List Nat :=
  match (dijkstraAll g s).find? (fun e => e.1 == t) with
  | some (_, _, p) => p
  | none => []

/-- The shortest-path length between two nodes. -/
def dijkstraDist (g : Graph) (s t : Nat) : Option Int :=
  ((dijkstraAll g s).find? (fun e => e.1 == t)).map (fun e => e.2.1)

/-- Prim frontier loop: pop the lightest frontier edge, skip if its far
endpoint is already in the tree, otherwise take the edge and push the
new node's incident edges. -/
def primLoop (g : Graph) :
    Nat → List Nat → List (Nat × Nat × Int) → List (Nat × Nat) → List (Nat × Nat)
  | 0, _, _, acc => acc
  | fuel + 1, visited, frontier, acc =>
    match popMinBy (fun t => t.2.2) frontier with
    | none => acc
    | some ((a, b, _), rest) =>
      if visited.contains b then primLoop g fuel visited rest acc
      else
        primLoop g fuel (visited ++ [b])
          (rest ++ (neighbors g b).map (fun x => (b, x, edgeWeight g b x)))
          (acc ++ [(a, b)])

/-- Minimum spanning tree of the graph by Prim's algorithm, started
from the first node; returns the tree's edge list. -/
def primMST (g : Graph) : List (Nat × Nat) :=
  match nodeIds g with
  | [] => []
  | s :: _ =>
    primLoop g (2 * g.edges.length + g.nodes.length + 1) [s]
      ((neighbors g s).map (fun x => (s, x, edgeWeight g s x))) []

/-- Total weight of the MST edges. -/
def mstWeight (g : Graph) : Int :=
  ((primMST g).map (fun p => edgeWeight g p.1 p.2)).sum

/-- Whether two node pairs denote the same undirected edge. -/
def pairEqUndir (p q : Nat × Nat) : Bool :=
  (p.1 == q.1 && p.2 == q.2) || (p.1 == q.2 && p.2 == q.1)

/-- Whether two lists of node pairs denote the same set of undirected
edges (both lists duplicate-free). -/
def sameEdgeSet (xs ys : List (Nat × Nat)) : Bool :=
  xs.all (fun p => ys.any (pairEqUndir p)) &&
  ys.all (fun p => xs.any (pairEqUndir p)) &&
  xs.length == ys.length

/-- A flow assignment on directed arcs, kept antisymmetric. -/
def FlowMap : Type := List ((Nat × Nat) × Int)

/-- Current flow on a directed arc (0 when unset). -/
def flowValOn (f : FlowMap) (a b : Nat) : Int :=
  ((f.find? (fun p => p.1.1 == a && p.1.2 == b)).map Prod.snd).getD 0

/-- Set the flow on a directed arc. -/
def setFlow (f : FlowMap) (a b : Nat) (x : Int) : FlowMap :=
  ((a, b), x) :: f.filter (fun p => !(p.1.1 == a && p.1.2 == b))

/-- Residual capacity of an arc: the undirected edge's capacity (each
direction carries the full capacity, as the residual network built from
an undirected graph does) minus the current flow. -/
def residualCap (g : Graph) (f : FlowMap) (a b : Nat) : Int :=
  capBetween g a b - flowValOn f a b

/-- Residual-graph neighbors: endpoints of incident edges with positive
residual capacity. -/
def resNeighbors (g : Graph) (f : FlowMap) (a : Nat) : List Nat :=
  (neighbors g a).filter (fun v => decide (0 < residualCap g f a v))

/-- Breadth-first search for a shortest augmenting path to the sink;
queue entries hold the path in reverse, visited marks on enqueue. -/
def bfsAug (g : Graph) (f : FlowMap) (t : Nat) :
    Nat → List (List Nat) → List Nat → Option (List Nat)
  | 0, _, _ => none
  | fuel + 1, queue, visited =>
    match queue with
    | [] => none
    | path :: qrest =>
      match path with
      | [] => bfsAug g f t fuel qrest visited
      | a :: _ =>
        if a == t then some path.reverse
        else
          let nexts := (resNeighbors g f a).filter (fun v => !visited.contains v)
          bfsAug g f t fuel (qrest ++ nexts.map (fun v => v :: path)) (visited ++ nexts)

/-- Minimum residual capacity along a list of consecutive arcs. -/
def bottleneck (g : Graph) (f : FlowMap) : List (Nat × Nat) → Int
  | [] => 0
  | [p] => residualCap g f p.1 p.2
  | p :: rest => min (residualCap g f p.1 p.2) (bottleneck g f rest)

/-- Push an amount of flow along a list of arcs, keeping the assignment
antisymmetric. -/
def augmentPairs (b : Int) : FlowMap → List (Nat × Nat) → FlowMap
  | f, [] => f
  | f, (x, y) :: rest =>
    let f1 := setFlow f x y (flowValOn f x y + b)
    let f2 := setFlow f1 y x (flowValOn f1 y x - b)
    augmentPairs b f2 rest

/-- Edmonds-Karp augmenting loop: repeatedly push flow along a
BFS-shortest augmenting path until none exists. -/
def ekLoop (g : Graph) (s t : Nat) : Nat → FlowMap → FlowMap
  | 0, f => f
  | fuel + 1, f =>
    match bfsAug g f t (g.nodes.length + 2) [[s]] [s] with
    | none => f
    | some path =>
      let prs := path.zip path.tail
      ekLoop g s t fuel (augmentPairs (bottleneck g f prs) f prs)

/-- The maximum-flow value between two nodes: run Edmonds-Karp and sum
the net flow out of the source. -/
def maxflowValue (g : Graph) (s t : Nat) : Int :=
  let f := ekLoop g s t (g.nodes.length * g.edges.length + 1) []
  ((neighbors g s).map (fun v => flowValOn f s v)).sum

/-- Capacity of the cut determined by a node set: the sum of the
capacities of the edges with exactly one endpoint inside. -/
def cutCapacity (g : Graph) (side : List Nat) : Int :=
  ((g.edges.filter (fun e =>
      (side.contains e.u && !side.contains e.v) ||
      (side.contains e.v && !side.contains e.u))).map Edge.capacity).sum

/-- Stable descending-degree insertion: a node goes after every node of
strictly larger degree and before the first of equal or smaller degree. -/
def insertByDegree (g : Graph) (n : Nat) : List Nat → List Nat
  | [] => [n]
  | m :: rest =>
    if degree g n < degree g m then m :: insertByDegree g n rest
    else n :: m :: rest

/-- The largest-first processing order: nodes sorted by descending
degree, ties kept in insertion (ascending id) order. -/
def orderedNodes (g : Graph) : List Nat :=
  g.nodes.foldr (fun nd acc => insertByDegree g nd.id acc) []

/-- The smallest natural number not in the list (counter bounded by the
list length). -/
def firstFreeColor (used : List Nat) : Nat → Nat → Nat
  | 0, c => c
  | k + 1, c => if used.contains c then firstFreeColor used k (c + 1) else c

/-- One greedy-coloring step: give the node the smallest color unused by
its already-colored neighbors. -/
def greedyColorStep (g : Graph) (acc : List (Nat × Nat)) (n : Nat) : List (Nat × Nat) :=
  let used := (neighbors g n).filterMap (fun v => ((acc.find? (fun p => p.1 == v)).map Prod.snd))
  acc ++ [(n, firstFreeColor used (used.length + 1) 0)]

/-- Greedy largest-first coloring of the whole graph. -/
def greedyColoring (g : Graph) : List (Nat × Nat) :=
  (orderedNodes g).foldl (greedyColorStep g) []

/-- The color assigned to a node. -/
def colorOf (g : Graph) (n : Nat) : Option Nat :=
  ((greedyColoring g).find? (fun p => p.1 == n)).map Prod.snd

/-- The reported chromatic number: one plus the maximum color index
used. -/
def chromaticReported (g : Graph) : Nat :=
  ((greedyColoring g).map Prod.snd).foldr max 0 + 1

/-- Edge density of the graph: 2|E| / (|V| (|V| - 1)), zero for a graph
with no edges or at most one node. -/
def densityQ (g : Graph) : ℚ :=
  let n := g.nodes.length
  let m := g.edges.length
  if m = 0 ∨ n ≤ 1 then 0
  else (2 * m : ℚ) / ((n : ℚ) * ((n : ℚ) - 1))

/-- Number of edges joining two neighbors of a node (its triangle
count). -/
def trianglesAt (g : Graph) (n : Nat) : Nat :=
  (g.edges.filter (fun e =>
    (neighbors g n).contains e.u && (neighbors g n).contains e.v)).length

/-- Local clustering coefficient of a node (0 when degree is below 2). -/
def localClustering (g : Graph) (n : Nat) : ℚ :=
  let d := degree g n
  if d < 2 then 0
  else (2 * trianglesAt g n : ℚ) / ((d : ℚ) * ((d : ℚ) - 1))

/-- Average clustering coefficient over all nodes. -/
def avgClusteringQ (g : Graph) : ℚ :=
  if g.nodes.length = 0 then 0
  else ((nodeIds g).map (localClustering g)).sum / (g.nodes.length : ℚ)

/-- Layered breadth-first search recording the hop distance of each
newly discovered node. -/
def bfsLayers (g : Graph) :
    Nat → List (Nat × Nat) → List Nat → Nat → List (Nat × Nat)
  | 0, acc, _, _ => acc
  | fuel + 1, acc, frontier, d =>
    let fresh := frontier.foldl
      (fun ns a => ns ++ (neighbors g a).filter
        (fun v => !(acc.any (fun p => p.1 == v)) && !ns.contains v)) []
    match fresh with
    | [] => acc
    | _ => bfsLayers g fuel (acc ++ fresh.map (fun v => (v, d + 1))) fresh (d + 1)

/-- Hop distances from a source node to every reachable node. -/
def bfsDists (g : Graph) (s : Nat) : List (Nat × Nat) :=
  bfsLayers g (g.nodes.length + 1) [(s, 0)] [s] 0

/-- Hop distance between two nodes (0 when the target was not reached;
only used on connected graphs). -/
def hopDist (g : Graph) (a b : Nat) : Nat :=
  (((bfsDists g a).find? (fun p => p.1 == b)).map Prod.snd).getD 0

/-- Average shortest-path length over ordered node pairs (hop count,
as the unweighted metric call computes). -/
def asplQ (g : Graph) : ℚ :=
  let n := g.nodes.length
  if n ≤ 1 then 0
  else (((nodeIds g).flatMap (fun a => (nodeIds g).map (hopDist g a))).sum : ℚ) /
    ((n : ℚ) * ((n : ℚ) - 1))

/-- Hop diameter: the largest hop distance between any node pair. -/
def diameterN (g : Graph) : Nat :=
  ((nodeIds g).flatMap (fun a => (nodeIds g).map (hopDist g a))).foldr max 0

/-- Number of connected components: count the distinct minimal
representatives of the reachable sets. -/
def componentsCount (g : Graph) : Nat :=
  (((nodeIds g).map (fun a =>
    (reachClosure g a).foldr min ((reachClosure g a).headD 0))).dedup).length

/-- Mean node degree. -/
def avgDegreeQ (g : Graph) : ℚ :=
  if g.nodes.length = 0 then 0
  else (((nodeIds g).map (degree g)).sum : ℚ) / (g.nodes.length : ℚ)

/-- The metrics record kept by the simulator. -/
structure NetworkMetrics where
  density : ℚ
  avg_clustering : ℚ
  avg_path_length : WithTop ℚ
  diameter : WithTop ℕ
  connected_components : ℕ
  avg_degree : ℚ
  deriving DecidableEq

/-- The metrics computation: on an empty graph it returns early keeping
the previous metrics; otherwise it fills every field, with the infinity
sentinel for path length and diameter when the graph is disconnected. -/
def calculateMetrics (g : Graph) (prev : Option NetworkMetrics) : Option NetworkMetrics :=
  if g.nodes.isEmpty then prev
  else some
    { density := densityQ g
      avg_clustering := if 2 < g.nodes.length then avgClusteringQ g else 0
      avg_path_length := if isConnectedB g then ((asplQ g : ℚ) : WithTop ℚ) else ⊤
      diameter := if isConnectedB g then ((diameterN g : ℕ) : WithTop ℕ) else ⊤
      connected_components := componentsCount g
      avg_degree := avgDegreeQ g }

/-- The failure simulation's node choice: an arbitrary selection index
reduced modulo the node count. -/
def chooseNode (g : Graph) (k : Nat) : Nat :=
  (nodeIds g).getD (k % (nodeIds g).length) 0

/-- The failure simulation: a no-op on an empty graph, otherwise remove
the chosen current node. -/
def simulateFailure (g : Graph) (k : Nat) : Graph :=
  if g.nodes.isEmpty then g else removeNodeT g (chooseNode g k)

/-- The working graph right after the failure of node 4 on the
baseline. -/
def graphAfterFail4 : Graph := removeNodeT baselineGraph 4

/-- A disconnected snapshot reached from the baseline by failing nodes
3 and 4: components \x7b1,2\x7d and \x7b5,6,7,8\x7d. -/
def disconnectedSnapshot : Graph := removeNodeT (removeNodeT baselineGraph 3) 4

/-- A node-failure mutation never touches the baseline snapshot. -/
theorem failNode_preserves_original (s : Store) (n : Nat) :
    (failNode s n).G_original = s.G_original := by
  unfold failNode
  cases removeNodeE s.G n <;> rfl

/-- A whole sequence of node-failure mutations never touches the
baseline snapshot. -/
theorem applyFails_preserves_original (l : List Nat) :
    ∀ s : Store, (applyFails s l).G_original = s.G_original := by
  induction l with
  | nil => intro s; rfl
  | cons n tl ih =>
    intro s
    have h1 : applyFails s (n :: tl) = applyFails (failNode s n) tl := rfl
    rw [h1, ih, failNode_preserves_original]

/-- C1: after any sequence of node-failure removals on the store,
resetting restores the working graph to exactly the baseline topology,
nodes, edges and attributes included. -/
theorem C1_reset_restores_baseline (l : List Nat) :
    (resetStore (applyFails initStore l)).G = baselineGraph := by
  have h : (resetStore (applyFails initStore l)).G = (applyFails initStore l).G_original := rfl
  rw [h, applyFails_preserves_original]
  rfl

/-- C3: on the baseline topology the Prim MST computation returns total
weight 23 and exactly the claimed edge set. -/
theorem C3_mst_baseline :
    mstWeight baselineGraph = 23 ∧
    sameEdgeSet (primMST baselineGraph)
      [(3, 5), (7, 8), (1, 3), (6, 7), (1, 2), (5, 6), (2, 4)] = true := by decide

/-- C4: on the baseline topology Dijkstra from node 1 to node 8 returns
the path [1, 3, 5, 6, 7, 8] with total weight 14. -/
theorem C4_dijkstra_baseline :
    hasPathB baselineGraph 1 8 = true ∧
    dijkstraPath baselineGraph 1 8 = [1, 3, 5, 6, 7, 8] ∧
    dijkstraDist baselineGraph 1 8 = some 14 := by decide

/-- C5: on the baseline topology the maximum flow from node 1 to node 8
is 140, which equals the capacity of the cut separating nodes 1-5 from
6-8, whose crossing edges are (5,6) with capacity 90 and (4,8) with
capacity 50. -/
theorem C5_maxflow_baseline :
    maxflowValue baselineGraph 1 8 = 140 ∧
    cutCapacity baselineGraph [1, 2, 3, 4, 5] = 140 ∧
    capBetween baselineGraph 5 6 = 90 ∧
    capBetween baselineGraph 4 8 = 50 := by decide

/-- C6: on the baseline topology greedy largest-first coloring processes
nodes in order [3,4,1,2,5,6,7,8], yields the claimed assignment and the
reported chromatic number 2. -/
theorem C6_coloring_baseline :
    orderedNodes baselineGraph = [3, 4, 1, 2, 5, 6, 7, 8] ∧
    colorOf baselineGraph 1 = some 1 ∧ colorOf baselineGraph 2 = some 0 ∧
    colorOf baselineGraph 3 = some 0 ∧ colorOf baselineGraph 4 = some 1 ∧
    colorOf baselineGraph 5 = some 1 ∧ colorOf baselineGraph 6 = some 0 ∧
    colorOf baselineGraph 7 = some 1 ∧ colorOf baselineGraph 8 = some 0 ∧
    chromaticReported baselineGraph = 2 := by decide

/-- C7 counterexample: after removing node 4 from the baseline a path
from node 2 to node 8 still exists (2-1-3-5-6-7-8), so the claim that
HasPath(2,8) becomes false is wrong on the code. -/
theorem C7_counterexample :
    removeNodeE baselineGraph 4 = Except.ok graphAfterFail4 ∧
    hasPathB graphAfterFail4 2 8 = true := ⟨rfl, by decide⟩

/-- C7 amended: removing node 4 from the baseline removes exactly the
edges (2,4), (3,4), (4,8), leaves the graph connected, and HasPath(2,8)
remains true. -/
theorem C7_node4_failure :
    removeNodeE baselineGraph 4 = Except.ok graphAfterFail4 ∧
    nodeIds graphAfterFail4 = [1, 2, 3, 5, 6, 7, 8] ∧
    graphAfterFail4.edges.map (fun e => (e.u, e.v)) =
      [(1, 2), (1, 3), (3, 5), (5, 6), (6, 7), (7, 8)] ∧
    (baselineGraph.edges.filter
      (fun e => !((graphAfterFail4.edges.map (fun x => (x.u, x.v))).contains
        (e.u, e.v)))).map (fun e => (e.u, e.v)) =
      [(2, 4), (3, 4), (4, 8)] ∧
    isConnectedB graphAfterFail4 = true ∧
    hasPathB graphAfterFail4 2 8 = true := ⟨rfl, by decide⟩

/-- Everything popMinBy returns comes from the input list: the popped
element is a member, and the remainder is made of members. -/
theorem popMinBy_mem {α : Type} (f : α → Int) :
    ∀ (l : List α) (a : α) (rest : List α),
      popMinBy f l = some (a, rest) → a ∈ l ∧ ∀ x ∈ rest, x ∈ l := by
  intro l
  induction l with
  | nil => intro a rest h; simp [popMinBy] at h
  | cons b tl ih =>
    intro a rest h
    rw [popMinBy] at h
    cases htl : popMinBy f tl with
    | none =>
      rw [htl] at h
      simp only [Option.some.injEq, Prod.mk.injEq] at h
      obtain ⟨h1, h2⟩ := h
      subst h1; subst h2
      exact ⟨List.mem_cons_self b tl, by intro x hx; simp at hx⟩
    | some pr =>
      obtain ⟨c, tl2⟩ := pr
      rw [htl] at h
      dsimp only at h
      by_cases hf : f b ≤ f c
      · rw [if_pos hf] at h
        simp only [Option.some.injEq, Prod.mk.injEq] at h
        obtain ⟨h1, h2⟩ := h
        subst h1; subst h2
        exact ⟨List.mem_cons_self b tl, fun x hx => List.mem_cons_of_mem b hx⟩
      · rw [if_neg hf] at h
        simp only [Option.some.injEq, Prod.mk.injEq] at h
        obtain ⟨h1, h2⟩ := h
        subst h1; subst h2
        have hc := ih c tl2 htl
        refine ⟨List.mem_cons_of_mem b hc.1, ?_⟩
        intro x hx
        rcases List.mem_cons.mp hx with hxb | hxtl
        · subst hxb; exact List.mem_cons_self x tl
        · exact List.mem_cons_of_mem b (hc.2 x hxtl)

/-- Every node finalized by the Dijkstra distance loop is reachable
from the start, provided every already-finalized and every fringe entry
is. -/
theorem dijkstraLoopD_sound (g : Graph) (s : Nat) :
    ∀ (fuel : Nat) (dist fringe : List (Nat × Int)),
      (∀ p ∈ dist, Reaches g s p.1) →
      (∀ p ∈ fringe, Reaches g s p.1) →
      ∀ p ∈ dijkstraLoopD g fuel dist fringe, Reaches g s p.1 := by
  intro fuel
  induction fuel with
  | zero => intro dist fringe hd _ p hp; exact hd p hp
  | succ m ih =>
    intro dist fringe hd hf p hp
    rw [dijkstraLoopD] at hp
    cases hpop : popMinBy (fun t => t.2) fringe with
    | none => rw [hpop] at hp; exact hd p hp
    | some pr =>
      obtain ⟨⟨a, d⟩, rest⟩ := pr
      rw [hpop] at hp
      dsimp only at hp
      have hmm := popMinBy_mem (fun t => t.2) fringe (a, d) rest hpop
      have ha : Reaches g s a := hf (a, d) hmm.1
      have hrest : ∀ q ∈ rest, Reaches g s q.1 := fun q hq => hf q (hmm.2 q hq)
      by_cases hin : (dist.find? (fun t => t.1 == a)).isSome
      · rw [if_pos hin] at hp
        exact ih dist rest hd hrest p hp
      · rw [if_neg hin] at hp
        refine ih _ _ ?_ ?_ p hp
        · intro q hq
          rcases List.mem_append.mp hq with h1 | h2
          · exact hd q h1
          · have : q = (a, d) := by simpa using h2
            subst this; exact ha
        · intro q hq
          rcases List.mem_append.mp hq with h1 | h2
          · exact hrest q h1
          · obtain ⟨v, hv, hq2⟩ := List.mem_map.mp h2
            subst hq2
            exact Reaches.step ha hv

/-- C8 amended: every pair listed in the all-pairs shortest-path result
is reachable; equivalently, a pair with no connecting path never
receives a distance entry and is omitted from the result. -/
theorem C8_listed_pairs_reachable (g : Graph) (a b : Nat) (d : Int)
    (row : List (Nat × Int))
    (h1 : (a, row) ∈ allPairsDijkstra g) (h2 : (b, d) ∈ row) :
    Reaches g a b := by
  obtain ⟨x, hx, heq⟩ := List.mem_map.mp h1
  have he1 : x = a := congrArg Prod.fst heq
  have he2 : dijkstraDists g x = row := congrArg Prod.snd heq
  subst he1
  subst he2
  unfold dijkstraDists at h2
  have hinit : ∀ p ∈ ([(x, (0 : Int))] : List (Nat × Int)), Reaches g x p.1 := by
    intro p hp
    have hpx : p = (x, 0) := by simpa using hp
    subst hpx
    exact Reaches.refl
  have := dijkstraLoopD_sound g x (2 * g.edges.length + g.nodes.length + 2) [] [(x, 0)]
    (by intro p hp; simp at hp) hinit (b, d) h2
  exact this

/-- C8 witness: the baseline row for source 1 lists node 8 at distance
14, and the theorem yields its reachability. -/
theorem C8_witness :
    (1, dijkstraDists baselineGraph 1) ∈ allPairsDijkstra baselineGraph ∧
    (8, (14 : Int)) ∈ dijkstraDists baselineGraph 1 ∧
    Reaches baselineGraph 1 8 :=
  ⟨by decide, by decide,
    C8_listed_pairs_reachable baselineGraph 1 8 14 (dijkstraDists baselineGraph 1)
      (by decide) (by decide)⟩

/-- C8 counterexample: on the disconnected snapshot both 1 and 5 are
nodes, yet the all-pairs result has no entry at all for the pair (1,5):
the pair is omitted, not mapped to an infinity sentinel. -/
theorem C8_counterexample :
    1 ∈ nodeIds disconnectedSnapshot ∧ 5 ∈ nodeIds disconnectedSnapshot ∧
    ((allPairsDijkstra disconnectedSnapshot).find? (fun r => r.1 == 1)).isSome = true ∧
    apLookup disconnectedSnapshot 1 5 = none := by decide

/-- C9 counterexample: on the empty graph the metrics computation
returns no metrics at all — with no previous metrics it yields none and
it leaves stale previous metrics unchanged — instead of returning
defined zero/sentinel values for the empty graph. -/
theorem C9_counterexample :
    calculateMetrics emptyNetGraph none = none ∧
    calculateMetrics emptyNetGraph
      (some { density := 1, avg_clustering := 1, avg_path_length := 1,
              diameter := 1, connected_components := 1, avg_degree := 1 }) =
      some { density := 1, avg_clustering := 1, avg_path_length := 1,
             diameter := 1, connected_components := 1, avg_degree := 1 } := ⟨rfl, rfl⟩

/-- C9 amended: the metrics computation is a total function; on a
nonempty disconnected graph the average path length and the diameter
are the infinity sentinel rather than an error, and on the empty graph
it returns the previous metrics unchanged rather than computing fresh
values or raising. -/
theorem C9_metrics_total (g : Graph) (prev : Option NetworkMetrics) :
    (g.nodes = [] → calculateMetrics g prev = prev) ∧
    (g.nodes ≠ [] → isConnectedB g = false →
      ∃ m, calculateMetrics g prev = some m ∧
        m.avg_path_length = ⊤ ∧ m.diameter = ⊤) := by
  constructor
  · intro h
    unfold calculateMetrics
    rw [h]
    rfl
  · intro h hc
    have hne : g.nodes.isEmpty = false := by
      cases hg : g.nodes with
      | nil => exact absurd hg h
      | cons y ys => rfl
    unfold calculateMetrics
    rw [hne, hc]
    exact ⟨_, rfl, rfl, rfl⟩

/-- C9 witness: the theorem applied at the empty graph and at the
disconnected two-component snapshot. -/
theorem C9_witness :
    calculateMetrics emptyNetGraph none = none ∧
    ∃ m, calculateMetrics disconnectedSnapshot none = some m ∧
      m.avg_path_length = ⊤ ∧ m.diameter = ⊤ :=
  ⟨(C9_metrics_total emptyNetGraph none).1 rfl,
   (C9_metrics_total disconnectedSnapshot none).2 (by decide) (by decide)⟩

/-- An in-range positional lookup with default yields a list member. -/
theorem getD_mem_of_lt : ∀ (l : List Nat) (i : Nat), i < l.length → l.getD i 0 ∈ l := by
  intro l
  induction l with
  | nil => intro i h; simp at h
  | cons a tl ih =>
    intro i h
    cases i with
    | zero => simp
    | succ j =>
      rw [List.getD_cons_succ]
      exact List.mem_cons_of_mem a (ih j (Nat.lt_of_succ_lt_succ h))

/-- C10: the failure simulation never hits the missing-node error
branch: on the empty graph it is a no-op leaving the graph unchanged,
and on a nonempty graph the chosen node is a member of the current node
set, so the remove operation succeeds and returns the new graph. -/
theorem C10_failure_simulation_safe (g : Graph) (k : Nat) :
    (g.nodes = [] → simulateFailure g k = g) ∧
    (g.nodes ≠ [] →
      chooseNode g k ∈ nodeIds g ∧
      removeNodeE g (chooseNode g k) = Except.ok (simulateFailure g k)) := by
  constructor
  · intro h
    unfold simulateFailure
    rw [h]
    rfl
  · intro h
    have hlen : 0 < (nodeIds g).length := by
      cases hg : g.nodes with
      | nil => exact absurd hg h
      | cons y ys => simp [nodeIds, hg]
    have hmem : chooseNode g k ∈ nodeIds g := by
      unfold chooseNode
      exact getD_mem_of_lt (nodeIds g) (k % (nodeIds g).length) (Nat.mod_lt _ hlen)
    refine ⟨hmem, ?_⟩
    have hne : g.nodes.isEmpty = false := by
      cases hg : g.nodes with
      | nil => exact absurd hg h
      | cons y ys => rfl
    have hok : removeNodeE g (chooseNode g k) = Except.ok (removedGraph g (chooseNode g k)) := by
      unfold removeNodeE
      rw [if_pos hmem]
    unfold simulateFailure removeNodeT
    rw [hne, hok]
    rfl

/-- C10 witness: the theorem applied to the baseline graph with
selection index 3 (which picks node 4). -/
theorem C10_witness :
    chooseNode baselineGraph 3 ∈ nodeIds baselineGraph ∧
    removeNodeE baselineGraph (chooseNode baselineGraph 3) =
      Except.ok (simulateFailure baselineGraph 3) :=
  (C10_failure_simulation_safe baselineGraph 3).2 (by decide)
